import Mathlib

/-!
# Verification of the megaSchedule shift-generation engine

A shallow embedding of the `ConfigurableScheduler` engine (weekly and
monthly schedule generation, priority ranking, candidate scoring,
constraint evaluation and the two-phase fill loop) together with proofs
about its behaviour.

Modelling conventions:

* TypeScript `number` values that carry fractional data (hours, weights,
  scores, priorities) are embedded as exact rationals `Q`, represented as
  an unnormalised numerator/denominator pair so that every arithmetic
  operation is structurally recursive and kernel-evaluable.  Every `Q`
  value produced by the engine has a positive denominator.
* Staffing counts (`minimumStaff`, `maximumStaff`, `maxConsecutiveShifts`)
  are embedded as `Nat`.
* The ambient sources the engine consumes, `Date.now()`,
  `Math.random()` and (through `DateUtils.formatDate`, which renders via
  `Date#toISOString`) the environment timezone, are passed in
  explicitly: `now : Nat` is the clock reading, `rand : Nat → String`
  is the stream of rendered random draws indexed in the order
  `Math.random()` is called, and `tz : Int` is the
  `Date#getTimezoneOffset()` value in minutes.
* Fallible behaviour (a JavaScript `TypeError` raised when a day is
  missing from `dayConfigurations`) is embedded with `Except`.
-/

/-- Exact rational numbers as unnormalised fractions.  All arithmetic is
structural, so concrete values reduce inside the kernel; comparisons are
by cross multiplication, which is correct whenever denominators are
positive (true for every value the engine builds). -/
structure Q where
  num : Int
  den : Nat
deriving DecidableEq, Repr

def Q.blt (a b : Q) : Bool := decide (a.num * (b.den : Int) < b.num * (a.den : Int))

def Q.ble (a b : Q) : Bool := decide (a.num * (b.den : Int) ≤ b.num * (a.den : Int))

instance : LT Q := ⟨fun a b => Q.blt a b = true⟩

instance : LE Q := ⟨fun a b => Q.ble a b = true⟩

instance (a b : Q) : Decidable (a < b) := inferInstanceAs (Decidable (_ = true))

instance (a b : Q) : Decidable (a ≤ b) := inferInstanceAs (Decidable (_ = true))

instance (n : Nat) : OfNat Q n := ⟨⟨n, 1⟩⟩

instance : NatCast Q := ⟨fun n => ⟨n, 1⟩⟩

instance : OfScientific Q :=
  ⟨fun m b e => if b then ⟨m, 10 ^ e⟩ else ⟨(m : Int) * (10 : Int) ^ e, 1⟩⟩

def Q.add (a b : Q) : Q := ⟨a.num * b.den + b.num * a.den, a.den * b.den⟩

def Q.sub (a b : Q) : Q := ⟨a.num * b.den - b.num * a.den, a.den * b.den⟩

def Q.mul (a b : Q) : Q := ⟨a.num * b.num, a.den * b.den⟩

def Q.neg (a : Q) : Q := ⟨-a.num, a.den⟩

def Q.div (a b : Q) : Q :=
  if b.num < 0 then ⟨-(a.num * b.den), a.den * b.num.natAbs⟩
  else ⟨a.num * b.den, a.den * b.num.natAbs⟩

instance : Add Q := ⟨Q.add⟩

instance : Sub Q := ⟨Q.sub⟩

instance : Mul Q := ⟨Q.mul⟩

instance : Neg Q := ⟨Q.neg⟩

instance : Div Q := ⟨Q.div⟩

/-- Semantic equality of the two fractions (the representation is not
normalised, so propositional equality of values is finer than equality of
the rationals they denote). -/
def Q.eqv (a b : Q) : Prop := a.num * (b.den : Int) = b.num * (a.den : Int)

instance (a b : Q) : Decidable (a.eqv b) := inferInstanceAs (Decidable (_ = _))

/-- JavaScript `Math.max` on two numbers. -/
def Q.qmax (a b : Q) : Q := if a.blt b then b else a

/-- JavaScript `Math.min` on two numbers. -/
def Q.qmin (a b : Q) : Q := if b.blt a then b else a

/-! ## Data model (`src/unnamed/part_000`, second document) -/

inductive ShiftType
  | morning
  | afternoon
  | night
  | day
  | fullday
deriving DecidableEq, Repr

inductive DayOfWeek
  | monday
  | tuesday
  | wednesday
  | thursday
  | friday
  | saturday
  | sunday
deriving DecidableEq, Repr

structure StaffPreferences where
  desiredHoursPerWeek : Q
  preferredShifts : List ShiftType
  preferredDaysOff : List DayOfWeek
  unavailableDates : List String
  holidays : List String
deriving DecidableEq, Repr

structure Staff where
  id : String
  name : String
  email : String
  skills : List String
  preferences : StaffPreferences
  isActive : Bool
deriving DecidableEq, Repr

structure Shift where
  id : String
  type : ShiftType
  day : DayOfWeek
  date : Option String
  startTime : String
  endTime : String
  requiredSkills : List String
  minimumStaff : Nat
  maximumStaff : Nat
  assignedStaff : List String
deriving DecidableEq, Repr

structure Schedule where
  id : String
  weekStartDate : String
  monthStartDate : Option String
  scheduleType : Option String
  shifts : List Shift
  isPublished : Bool
  createdAt : String
  updatedAt : String
deriving DecidableEq, Repr

structure StaffRequirement where
  minimum : Nat
  maximum : Nat
deriving DecidableEq, Repr

/-- Per-day configuration.  The two `Record`s are embedded as
`Option`-valued functions so that the source's `|| default` fallbacks for
absent keys can be translated (`none` plays the role of `undefined`). -/
structure DayScheduleConfig where
  enabledShiftTypes : List ShiftType
  shiftSkillRequirements : ShiftType → Option (List String)
  shiftStaffRequirements : ShiftType → Option StaffRequirement

structure ScoringWeights where
  preferredShift : Q
  nonPreferredShift : Q
  preferredDayOff : Q
  matchingSkill : Q
  needsMoreHours : Q

/-- The `ScheduleConfiguration` record.  `dayConfigurations` is `Option`-valued: a
`none` entry models a day-of-week key missing from the supplied object,
which in JavaScript yields `undefined` and then a `TypeError` on member
access. -/
structure ScheduleConfiguration where
  maxConsecutiveShifts : Nat
  minRestHoursBetweenShifts : Q
  maxHoursPerWeek : Q
  minHoursPerWeek : Q
  requireSkillMatch : Bool
  minimumSkillsRequired : Bool
  dayConfigurations : DayOfWeek → Option DayScheduleConfig
  weights : ScoringWeights

/-- The runtime failure raised when generation dereferences a missing
`dayConfigurations` entry (an unhandled JavaScript `TypeError`). -/
inductive GenError
  | typeError
deriving DecidableEq, Repr

deriving instance DecidableEq for Except

def dayName : DayOfWeek → String
  | .monday => "monday"
  | .tuesday => "tuesday"
  | .wednesday => "wednesday"
  | .thursday => "thursday"
  | .friday => "friday"
  | .saturday => "saturday"
  | .sunday => "sunday"

def shiftTypeName : ShiftType → String
  | .morning => "morning"
  | .afternoon => "afternoon"
  | .night => "night"
  | .day => "day"
  | .fullday => "fullday"

/-- Index of a day in the `dayOrder` array `['monday', …, 'sunday']`. -/
def dayIndex : DayOfWeek → Nat
  | .monday => 0
  | .tuesday => 1
  | .wednesday => 2
  | .thursday => 3
  | .friday => 4
  | .saturday => 5
  | .sunday => 6

def daysOfWeek : List DayOfWeek :=
  [.monday, .tuesday, .wednesday, .thursday, .friday, .saturday, .sunday]

/-! ## Shift time and hour tables (`ConfigurableScheduler`) -/

/-- Translation of `getShiftStartTime` (source lines 845–854). -/
def getShiftStartTime : ShiftType → String
  | .morning => "07:00"
  | .afternoon => "15:00"
  | .night => "23:00"
  | .day => "07:00"
  | .fullday => "00:00"

/-- Translation of `getShiftEndTime` (source lines 856–865). -/
def getShiftEndTime : ShiftType → String
  | .morning => "15:00"
  | .afternoon => "23:00"
  | .night => "07:00"
  | .day => "19:00"
  | .fullday => "23:59"

/-- Translation of `getShiftStartHour` (source lines 1259–1262): the table maps
`fullday` to `0`, but the source returns `times[shiftType] || 7` and in
JavaScript `0 || 7` evaluates to `7`, so `fullday` effectively starts at
hour 7 for the rest-time computation. -/
def getShiftStartHour : ShiftType → Q
  | .morning => 7
  | .afternoon => 15
  | .night => 23
  | .day => 7
  | .fullday => 7

/-- Translation of `getShiftEndHour` (source lines 1264–1267); every table entry is
truthy so the `|| 15` fallback never fires. -/
def getShiftEndHour : ShiftType → Q
  | .morning => 15
  | .afternoon => 23
  | .night => 7
  | .day => 19
  | .fullday => 24

/-- Translation of `getShiftHours` (source lines 1275–1284). -/
def getShiftHours : ShiftType → Q
  | .morning => 8
  | .afternoon => 8
  | .night => 12
  | .day => 12
  | .fullday => 24

/-- Translation of `calculateWeeklyHours` (source lines 1269–1273). -/
def calculateWeeklyHours (assignments : List Shift) : Q :=
  assignments.foldl (fun total shift => total + getShiftHours shift.type) 0

/-- Translation of `calculateMonthlyHours` (source lines 1506–1510); textually the same
reduction as `calculateWeeklyHours`. -/
def calculateMonthlyHours (assignments : List Shift) : Q :=
  assignments.foldl (fun total shift => total + getShiftHours shift.type) 0

/-! ## Constraint evaluator -/

/-- Whether some already-committed shift falls on the day with the given
`dayOrder` index (the `sortedAssignments.some(s => s.day === dayName)`
test; the sort the source performs first does not affect `some`). -/
def worksDay (cur : List Shift) (i : Nat) : Bool :=
  cur.any fun s => dayIndex s.day == i

/-- The backward scan of `violatesMaxConsecutive`: number of consecutive
worked day indices immediately below the given index. -/
def consecBefore (cur : List Shift) : Nat → Nat
  | 0 => 0
  | i + 1 => if worksDay cur i then consecBefore cur i + 1 else 0

def consecAfterFuel (cur : List Shift) : Nat → Nat → Nat
  | 0, _ => 0
  | fuel + 1, i =>
    if i < 7 then (if worksDay cur i then consecAfterFuel cur fuel (i + 1) + 1 else 0)
    else 0

/-- The forward scan of `violatesMaxConsecutive`: number of consecutive
worked day indices starting at `i`, stopping at the end of the week. -/
def consecAfter (cur : List Shift) (i : Nat) : Nat :=
  consecAfterFuel cur 7 i

/-- Translation of `violatesMaxConsecutive` (source lines 1135–1190). -/
def violatesMaxConsecutive (cfg : ScheduleConfiguration) (shift : Shift)
    (cur : List Shift) : Bool :=
  if cur.isEmpty then false
  else
    let shiftDayIndex := dayIndex shift.day
    decide (1 + consecBefore cur shiftDayIndex + consecAfter cur (shiftDayIndex + 1)
      > cfg.maxConsecutiveShifts)

/-- Translation of `violatesMaxHours` (source lines 1192–1196).  The cap is always
`config.maxHoursPerWeek`, for monthly generation as well. -/
def violatesMaxHours (cfg : ScheduleConfiguration) (shift : Shift)
    (cur : List Shift) : Bool :=
  Q.blt cfg.maxHoursPerWeek (calculateWeeklyHours cur + getShiftHours shift.type)

/-- Translation of `violatesRestTime` (source lines 1198–1257).  The inner
`if (assignmentEndHour > shiftStartHour)` branches of the source reassign
the very same expression, so they are omitted.  The empty-assignment
early return coincides with `List.any` on `[]`. -/
def violatesRestTime (cfg : ScheduleConfiguration) (shift : Shift)
    (cur : List Shift) : Bool :=
  cur.any fun assignment =>
    let shiftDayIndex := dayIndex shift.day
    let assignmentDayIndex := dayIndex assignment.day
    let dayDiff := ((shiftDayIndex : Int) - (assignmentDayIndex : Int)).natAbs
    if dayDiff == 1 then
      let timeBetweenShifts : Q :=
        if shiftDayIndex > assignmentDayIndex then
          getShiftStartHour shift.type + (24 - getShiftEndHour assignment.type)
        else
          getShiftStartHour assignment.type + (24 - getShiftEndHour shift.type)
      timeBetweenShifts.blt cfg.minRestHoursBetweenShifts
    else if dayDiff == 0 then
      !(Q.ble (getShiftEndHour shift.type) (getShiftStartHour assignment.type)
        || Q.ble (getShiftEndHour assignment.type) (getShiftStartHour shift.type))
    else false

/-- Translation of `calculateConstraintPenalties` (source lines 1106–1127); the `staff`
parameter is unused in the source as well. -/
def calculateConstraintPenalties (cfg : ScheduleConfiguration) (staff : Staff)
    (shift : Shift) (cur : List Shift) : Q :=
  (if violatesMaxConsecutive cfg shift cur then (10 : Q) else 0)
    + (if violatesRestTime cfg shift cur then (15 : Q) else 0)
    + (if violatesMaxHours cfg shift cur then (20 : Q) else 0)

/-- Translation of `getShiftDate` of `ConfigurableScheduler` (source lines 1129–1133):
it ignores the shift entirely and returns the placeholder date; the
source comment reads "This should be replaced with actual date
calculation". -/
def getShiftDatePlaceholder : String := "2024-01-01"

/-! ## Candidate scorer -/

/-- Translation of `calculateStaffScore` (source lines 1025–1104), the weekly scorer. -/
def calculateStaffScore (cfg : ScheduleConfiguration) (staffList : List Staff)
    (staff : Staff) (shift : Shift) (cur : List Shift) : Q :=
  let score0 : Q := 50
  let score1 :=
    if staff.preferences.preferredShifts.contains shift.type then
      score0 + cfg.weights.preferredShift
    else if staff.preferences.preferredShifts.length > 0 then
      score0 + Q.qmax cfg.weights.nonPreferredShift (-3)
    else score0
  let score2 :=
    if staff.preferences.preferredDaysOff.contains shift.day then
      score1 + Q.qmax cfg.weights.preferredDayOff (-5)
    else score1
  let matchingSkills := (shift.requiredSkills.filter fun sk => staff.skills.contains sk).length
  let score3 :=
    if shift.requiredSkills.length > 0 then
      if matchingSkills > 0 then score2 + (matchingSkills : Q) * cfg.weights.matchingSkill
      else score2 - 5
    else score2
  let currentHours := calculateWeeklyHours cur
  let targetHours := staff.preferences.desiredHoursPerWeek
  let score4 :=
    if currentHours.blt targetHours then
      score3 + Q.qmin ((targetHours - currentHours) * 2) 20
    else if targetHours.blt currentHours then
      score3 - Q.qmin (currentHours - targetHours) 10
    else score3
  let totalShifts : Q := if staffList.length > 0 then 18 else 0
  let activeCount := (staffList.filter fun s => s.isActive).length
  let targetShiftsPerStaff := totalShifts / ((Nat.max activeCount 1 : Nat) : Q)
  let score5 :=
    if ((cur.length : Q)).blt targetShiftsPerStaff then
      score4 + Q.qmin ((targetShiftsPerStaff - (cur.length : Q)) * 3) 15
    else if targetShiftsPerStaff.blt (cur.length : Q) then
      score4 - Q.qmin (((cur.length : Q) - targetShiftsPerStaff) * 2) 10
    else score4
  let score6 :=
    if staff.preferences.holidays.contains getShiftDatePlaceholder then score5 - 30
    else score5
  score6 - calculateConstraintPenalties cfg staff shift cur

/-- Translation of `calculateMonthlyStaffScore` (source lines 1432–1504).  Only
`allShifts.length` is read from the `allShifts` argument, so mutation of
its elements during assignment is unobservable here. -/
def calculateMonthlyStaffScore (cfg : ScheduleConfiguration) (staffList : List Staff)
    (staff : Staff) (shift : Shift) (cur : List Shift) (allShifts : List Shift) : Q :=
  let score0 : Q := 50
  let score1 :=
    if staff.preferences.preferredShifts.contains shift.type then
      score0 + cfg.weights.preferredShift
    else if staff.preferences.preferredShifts.length > 0 then
      score0 + Q.qmax cfg.weights.nonPreferredShift (-3)
    else score0
  let score2 :=
    if staff.preferences.preferredDaysOff.contains shift.day then
      score1 + Q.qmax cfg.weights.preferredDayOff (-5)
    else score1
  let matchingSkills := (shift.requiredSkills.filter fun sk => staff.skills.contains sk).length
  let score3 :=
    if shift.requiredSkills.length > 0 then
      if matchingSkills > 0 then score2 + (matchingSkills : Q) * cfg.weights.matchingSkill
      else score2 - 5
    else score2
  let monthlyHours := calculateMonthlyHours cur
  let targetMonthlyHours := staff.preferences.desiredHoursPerWeek * 4.33
  let score4 :=
    if monthlyHours.blt (targetMonthlyHours * 0.8) then score3 + 25
    else if monthlyHours.blt targetMonthlyHours then score3 + 15
    else if (targetMonthlyHours * 1.2).blt monthlyHours then score3 - 15
    else score3
  let activeCount := (staffList.filter fun s => s.isActive).length
  let averageMonthlyAssignments := (allShifts.length : Q) / ((Nat.max activeCount 1 : Nat) : Q)
  let score5 :=
    if ((cur.length : Q)).blt (averageMonthlyAssignments * 0.8) then score4 + 20
    else if (averageMonthlyAssignments * 1.2).blt (cur.length : Q) then score4 - 10
    else score4
  let score6 :=
    match shift.date with
    | some d => if d ≠ "" && staff.preferences.holidays.contains d then score5 - 30 else score5
    | none => score5
  score6 - calculateConstraintPenalties cfg staff shift cur * 0.5

/-! ## Priority ranker

The source duplicates one `getPriorityScore` closure inside
`autoAssignStaff` (lines 879–948) and another inside
`autoAssignMonthlyStaff` (lines 1308–1353); the shared blocks are
factored here and each closure is the sum of its blocks in source
order. -/

/-- Translation of the `staffWithSkills` count (lines 887–891 and 1315–1319): active staff holding
at least one of the shift's required skills. -/
def staffWithSkillsCount (staffList : List Staff) (shift : Shift) : Nat :=
  (staffList.filter fun s =>
    s.isActive && shift.requiredSkills.any fun sk => s.skills.contains sk).length

/-- The `availableStaff` pool of lines 923–940: active staff, excluding
those failing a required-skill check when both `requireSkillMatch` and
`minimumSkillsRequired` are set. -/
def availableStaffCount (cfg : ScheduleConfiguration) (staffList : List Staff)
    (shift : Shift) : Nat :=
  (staffList.filter fun staff =>
    if !staff.isActive then false
    else if cfg.requireSkillMatch && shift.requiredSkills.length > 0 then
      let hasRequiredSkills := shift.requiredSkills.any fun sk => staff.skills.contains sk
      !(cfg.minimumSkillsRequired && !hasRequiredSkills)
    else true).length

/-- Lines 883–895 / 1312–1323: `+20` per required skill and `+25` when
fewer than `2 × minimumStaff` active staff hold one of them. -/
def skillPriority (staffList : List Staff) (shift : Shift) : Q :=
  if shift.requiredSkills.length > 0 then
    (shift.requiredSkills.length : Q) * 20
      + (if staffWithSkillsCount staffList shift < shift.minimumStaff * 2 then 25 else 0)
  else 0

/-- Lines 897–901 / 1325–1329: `+20` when
`maximumStaff / max(minimumStaff, 1) < 1.5`. -/
def lowFlexPriority (shift : Shift) : Q :=
  if ((shift.maximumStaff : Q) / ((Nat.max shift.minimumStaff 1 : Nat) : Q)).blt 1.5
  then 20 else 0

/-- Lines 904–912 / 1331–1338: fixed per-kind criticality bonus. -/
def shiftTypePriority : ShiftType → Q
  | .fullday => 30
  | .night => 25
  | .day => 15
  | .morning => 10
  | .afternoon => 5

/-- Lines 914–917 / 1340–1342: `+15` on Saturday or Sunday. -/
def weekendPriority (day : DayOfWeek) : Q :=
  if day == DayOfWeek.saturday || day == DayOfWeek.sunday then 15 else 0

/-- Lines 941–945 (weekly closure only): `+30` when the available pool is
smaller than `1.5 × minimumStaff`. -/
def availabilityPriority (cfg : ScheduleConfiguration) (staffList : List Staff)
    (shift : Shift) : Q :=
  if ((availableStaffCount cfg staffList shift : Q)).blt ((shift.minimumStaff : Q) * 1.5)
  then 30 else 0

/-- Models `String.split('-')` on the character list (structural, so concrete
values reduce in the kernel). -/
def splitOnDash : List Char → List (List Char)
  | [] => [[]]
  | c :: cs =>
    let rest := splitOnDash cs
    if c == '-' then [] :: rest
    else
      match rest with
      | [] => [[c]]
      | group :: groups => (c :: group) :: groups

def parseNatAux : List Char → Nat → Option Nat
  | [], acc => some acc
  | c :: cs, acc =>
    if 48 ≤ c.toNat && c.toNat ≤ 57 then parseNatAux cs (acc * 10 + (c.toNat - 48))
    else none

/-- Models `parseInt` restricted to all-digit strings; on the zero-padded
day-of-month components the generator produces, this agrees with
JavaScript's `parseInt`. -/
def parseNat? : List Char → Option Nat
  | [] => none
  | c :: cs => parseNatAux (c :: cs) 0

/-- Lines 1346–1350 (monthly closure only):
`Math.max(0, 32 − parseInt(shift.date.split('-')[2])) * 0.5`.  A date
that is absent or empty is falsy and contributes nothing; an unparsable
third component would make the priority NaN in JavaScript, which cannot
arise for generated dates and is modelled as 0. -/
def earlyDatePriority (dateString : Option String) : Q :=
  match dateString with
  | none => 0
  | some d =>
    if d = "" then 0
    else
      match ((splitOnDash d.toList).get? 2).bind parseNat? with
      | some dayOfMonth => Q.qmax 0 ((32 : Q) - (dayOfMonth : Q)) * 0.5
      | none => 0

/-- The weekly `getPriorityScore` closure (lines 879–948). -/
def getPriorityScore (cfg : ScheduleConfiguration) (staffList : List Staff)
    (shift : Shift) : Q :=
  skillPriority staffList shift
    + lowFlexPriority shift
    + shiftTypePriority shift.type
    + weekendPriority shift.day
    + (shift.minimumStaff : Q) * 8
    + availabilityPriority cfg staffList shift

/-- The monthly `getPriorityScore` closure (lines 1308–1353): the same
blocks except that the `availableStaff`/`+30` block is absent and the
early-date bonus is added. -/
def getMonthlyPriorityScore (staffList : List Staff) (shift : Shift) : Q :=
  skillPriority staffList shift
    + lowFlexPriority shift
    + shiftTypePriority shift.type
    + weekendPriority shift.day
    + (shift.minimumStaff : Q) * 8
    + earlyDatePriority shift.date


/-! ## Assignment solver

The fill loop of `autoAssignStaff` (lines 954–1022) and of
`autoAssignMonthlyStaff` (lines 1359–1417) are textually identical apart
from the scoring function and log strings, so one translation is shared.
The source mutates `Shift` objects in place inside the `shifts` array it
was given; here shifts are tagged with their array position, processed in
priority order, and finally read back in position order. -/

/-- The `Map<string, Shift[]>` of running per-staff commitments, as an
association list.  Only `set` (initialisation), `get`, and
`get(id)?.push(shift)` are used by the engine. -/
abbrev AssignMap := List (String × List Shift)

def mapSet (m : AssignMap) (key : String) (v : List Shift) : AssignMap :=
  if m.any fun p => p.1 == key then
    m.map fun p => if p.1 == key then (p.1, v) else p
  else m ++ [(key, v)]

/-- Lookup, as in `assignments.get(id) || []`. -/
def mapGet (m : AssignMap) (key : String) : List Shift :=
  match m.find? fun p => p.1 == key with
  | some p => p.2
  | none => []

/-- Models `assignments.get(id)?.push(shift)`: appends when the key is present
and silently does nothing otherwise.  The pushed value is the shift as it
stood when processing began; the engine never reads `assignedStaff` back
out of the map, so the difference from the mutated object is
unobservable. -/
def mapPush (m : AssignMap) (key : String) (shift : Shift) : AssignMap :=
  m.map fun p => if p.1 == key then (p.1, p.2 ++ [shift]) else p

/-- Lines 868–875 / 1287–1294: every active staff member starts with an
empty commitment list. -/
def initAssignments (staffList : List Staff) : AssignMap :=
  staffList.foldl (fun m s => if s.isActive then mapSet m s.id [] else m) []

/-- Stable insertion of `x` into a list already sorted by `key`
descending: `x` goes before the first element whose key is not larger. -/
def insertByKeyDesc {α : Type} (key : α → Q) (x : α) : List α → List α
  | [] => [x]
  | y :: ys => if Q.ble (key y) (key x) then x :: y :: ys else y :: insertByKeyDesc key x ys

/-- JavaScript's `Array.prototype.sort` with the comparator
`(a, b) => key(b) - key(a)` is a stable descending sort (ES2019), and the
comparator is a consistent total preorder, so its result is the unique
stable descending order — which this insertion sort computes. -/
def sortByKeyDesc {α : Type} (key : α → Q) : List α → List α
  | [] => []
  | x :: xs => insertByKeyDesc key x (sortByKeyDesc key xs)

/-- The per-shift mutable state of the fill loop: the shift's
`assignedStaff` array, the `assignedCount` counter (which starts at 0
regardless of the array's initial contents), and the assignments map. -/
structure FillState where
  assignedStaff : List String
  assignedCount : Nat
  assignments : AssignMap

/-- Step 1 of the fill (lines 981–989 / 1382–1390): walk the scored
candidates, stopping at `maximumStaff`, or at a negative score once
`minimumStaff` is reached. -/
def primaryLoop (shift : Shift) : List (Staff × Q) → FillState → FillState
  | [], st => st
  | (candidate, score) :: rest, st =>
    if st.assignedCount ≥ shift.maximumStaff then st
    else if decide (st.assignedCount ≥ shift.minimumStaff) && score.blt 0 then st
    else
      primaryLoop shift rest
        { assignedStaff := st.assignedStaff ++ [candidate.id]
          assignedCount := st.assignedCount + 1
          assignments := mapPush st.assignments candidate.id shift }

/-- Step 2, the emergency fill (lines 1002–1013 / 1402–1409): walk the
remaining active staff, stopping once `minimumStaff` (or `maximumStaff`)
is reached. -/
def emergencyLoop (shift : Shift) : List Staff → FillState → FillState
  | [], st => st
  | staff :: rest, st =>
    if st.assignedCount ≥ shift.minimumStaff then st
    else if st.assignedCount ≥ shift.maximumStaff then st
    else
      emergencyLoop shift rest
        { assignedStaff := st.assignedStaff ++ [staff.id]
          assignedCount := st.assignedCount + 1
          assignments := mapPush st.assignments staff.id shift }

/-- Processing of a single shift in priority order (the body of the
`for (const shift of sortedShifts)` loop): candidate pool, scoring and
sort, primary fill, then emergency fill if the minimum is unmet. -/
def processShift (staffList : List Staff) (score : Staff → List Shift → Shift → Q)
    (m : AssignMap) (shift : Shift) : Shift × AssignMap :=
  let allActiveCandidates := staffList.filter fun staff =>
    staff.isActive && !(shift.assignedStaff.contains staff.id)
  let scoredCandidates :=
    sortByKeyDesc (fun p => p.2)
      (allActiveCandidates.map fun staff => (staff, score staff (mapGet m staff.id) shift))
  let st1 := primaryLoop shift scoredCandidates ⟨shift.assignedStaff, 0, m⟩
  let st2 :=
    if st1.assignedCount < shift.minimumStaff then
      let emergencyStaff := staffList.filter fun staff =>
        staff.isActive && !(st1.assignedStaff.contains staff.id)
      emergencyLoop shift emergencyStaff st1
    else st1
  ({ shift with assignedStaff := st2.assignedStaff }, st2.assignments)

/-- Sequential processing of the priority-sorted, position-tagged shifts,
threading the assignments map. -/
def processAll (staffList : List Staff) (score : Staff → List Shift → Shift → Q) :
    AssignMap → List (Nat × Shift) → List (Nat × Shift) × AssignMap
  | m, [] => ([], m)
  | m, (i, shift) :: rest =>
    let p1 := processShift staffList score m shift
    let p2 := processAll staffList score p1.2 rest
    ((i, p1.1) :: p2.1, p2.2)

/-- Read the processed shifts back in their original array order. -/
def restoreOrder (n : Nat) (processed : List (Nat × Shift)) : List Shift :=
  (List.range n).filterMap fun i => (processed.find? fun p => p.1 == i).map fun p => p.2

def autoAssignWith (staffList : List Staff) (prty : Shift → Q)
    (score : Staff → List Shift → Shift → Q) (shifts : List Shift) : List Shift :=
  let m0 := initAssignments staffList
  let sortedShifts := sortByKeyDesc (fun p => prty p.2) shifts.enum
  restoreOrder shifts.length (processAll staffList score m0 sortedShifts).1

/-- Translation of `autoAssignStaff` (lines 867–1023). -/
def autoAssignStaff (cfg : ScheduleConfiguration) (staffList : List Staff)
    (shifts : List Shift) : List Shift :=
  autoAssignWith staffList (getPriorityScore cfg staffList)
    (fun staff cur shift => calculateStaffScore cfg staffList staff shift cur) shifts

/-- Translation of `autoAssignMonthlyStaff` (lines 1286–1430).  The `shiftsByDate`
grouping the source builds first is never read afterwards and is omitted;
the monthly scorer receives the original `shifts` array, of which only
the length is used. -/
def autoAssignMonthlyStaff (cfg : ScheduleConfiguration) (staffList : List Staff)
    (shifts : List Shift) : List Shift :=
  autoAssignWith staffList (getMonthlyPriorityScore staffList)
    (fun staff cur shift => calculateMonthlyStaffScore cfg staffList staff shift cur shifts)
    shifts

/-! ## Shift factory and schedule assembly -/

/-- Modelled rendering of `new Date().toISOString()` at clock reading
`now`; the format is abstract (nothing downstream inspects it), but it is
determined by — and distinguishes — the clock value. -/
def mkISOTimestamp (now : Nat) : String := "iso:" ++ toString now

/-- Creation of one `Shift` (lines 752–762 weekly, 811–822 monthly).
The id template is `` `${day}-${shiftType}-${Date.now()}-${Math.random()}` ``
for weekly and `` `${dateString}-…` `` for monthly; `draw` is the
rendered `Math.random()` value. -/
def mkShift (day : DayOfWeek) (dateString : Option String) (dayConfig : DayScheduleConfig)
    (shiftType : ShiftType) (now : Nat) (draw : String) : Shift :=
  let skillRequirements := (dayConfig.shiftSkillRequirements shiftType).getD []
  let staffReq := (dayConfig.shiftStaffRequirements shiftType).getD ⟨2, 4⟩
  { id := (match dateString with | some ds => ds | none => dayName day)
      ++ "-" ++ shiftTypeName shiftType ++ "-" ++ toString now ++ "-" ++ draw
    type := shiftType
    day := day
    date := dateString
    startTime := getShiftStartTime shiftType
    endTime := getShiftEndTime shiftType
    requiredSkills := skillRequirements
    minimumStaff := staffReq.minimum
    maximumStaff := staffReq.maximum
    assignedStaff := [] }

/-- The weekly shift factory (lines 740–766): one shift per (day, enabled
kind).  A missing `dayConfigurations` entry aborts generation with the
`TypeError` that `dayConfig.enabledShiftTypes` would raise; `k` counts
`Math.random()` draws consumed so far. -/
def buildWeekShifts (cfg : ScheduleConfiguration) (now : Nat) (rand : Nat → String) :
    List DayOfWeek → Nat → Except GenError (List Shift)
  | [], _ => .ok []
  | day :: rest, k =>
    match cfg.dayConfigurations day with
    | none => .error .typeError
    | some dayConfig =>
      let dayShifts := dayConfig.enabledShiftTypes.enum.map fun p =>
        mkShift day none dayConfig p.2 now (rand (k + p.1))
      match buildWeekShifts cfg now rand rest (k + dayConfig.enabledShiftTypes.length) with
      | .error e => .error e
      | .ok more => .ok (dayShifts ++ more)

/-- Translation of `generateSchedule` (lines 728–780). -/
def generateSchedule (staffList : List Staff) (cfg : ScheduleConfiguration)
    (weekStartDate : String) (now : Nat) (rand : Nat → String) :
    Except GenError Schedule :=
  match buildWeekShifts cfg now rand daysOfWeek 0 with
  | .error e => .error e
  | .ok shifts =>
    .ok { id := "schedule-" ++ toString now
          weekStartDate := weekStartDate
          monthStartDate := none
          scheduleType := some "weekly"
          shifts := autoAssignStaff cfg staffList shifts
          isPublished := false
          createdAt := mkISOTimestamp now
          updatedAt := mkISOTimestamp now }

/-! ## Calendar dates (`src/src/lib/dateUtils.ts`)

The monthly generator calls `DateUtils.getMonthDates`, `getDayOfWeek`,
`formatDate` and `getMonthStart` (plus `formatMonthYear` and
`getDaysInMonth`, used only for console logging).  The JavaScript `Date`
values these methods handle are all local-midnight dates; they are
embedded as their local calendar components (year, month 1–12, day).
`formatDate` renders through `Date#toISOString`, i.e. in UTC, so its
output also depends on the ambient timezone: it is passed in explicitly
as `tz`, the value of `Date#getTimezoneOffset()` in minutes (UTC minus
local: negative east of UTC, positive west, `|tz|` under 24 hours). -/

structure CalDate where
  year : Nat
  month : Nat
  day : Nat
deriving DecidableEq, Repr

def isLeapYear (y : Nat) : Bool :=
  y % 4 == 0 && (y % 100 != 0 || y % 400 == 0)

/-- Month lengths as the JavaScript `Date` rollover used by
`getMonthDates` yields them (`new Date(year, month + 1, 0)` is the last
day of `month`): Gregorian, with leap February. -/
def daysInMonth (y m : Nat) : Nat :=
  if m == 2 then (if isLeapYear y then 29 else 28)
  else if m == 4 || m == 6 || m == 9 || m == 11 then 30
  else 31

/-- Embedding of `DateUtils.getMonthDates` (dateUtils.ts lines 30–46):
the loop from `new Date(year, month, 1)` up to
`new Date(year, month + 1, 0)` pushes the local dates of the month in
order, first to last. -/
def getMonthDates (d : CalDate) : List CalDate :=
  (List.range (daysInMonth d.year d.month)).map fun i => ⟨d.year, d.month, i + 1⟩

/-- Embedding of `DateUtils.getMonthStart` (dateUtils.ts lines 84–86):
`new Date(date.getFullYear(), date.getMonth(), 1)`. -/
def getMonthStart (d : CalDate) : CalDate := ⟨d.year, d.month, 1⟩

def daysBeforeMonth (y m : Nat) : Nat :=
  (List.range (m - 1)).foldl (fun acc k => acc + daysInMonth y (k + 1)) 0

/-- Days elapsed since 0001-01-01 in the proleptic Gregorian calendar
(which was a Monday). -/
def rataDie (d : CalDate) : Nat :=
  365 * (d.year - 1) + (d.year - 1) / 4 - (d.year - 1) / 100 + (d.year - 1) / 400
    + daysBeforeMonth d.year d.month + (d.day - 1)

/-- JavaScript `Date#getDay` of a local-midnight date: 0 for Sunday up to
6 for Saturday (0001-01-01 was a Monday, hence the shift by one). -/
def getDay (d : CalDate) : Nat := (rataDie d + 1) % 7

/-- The `days` array of `DateUtils.getDayOfWeek` (dateUtils.ts lines
5–13): `['sunday', 'monday', …, 'saturday']`, indexed by `getDay()`. -/
def jsWeekday : Nat → DayOfWeek
  | 0 => .sunday
  | 1 => .monday
  | 2 => .tuesday
  | 3 => .wednesday
  | 4 => .thursday
  | 5 => .friday
  | _ => .saturday

/-- Position of a weekday in the `days` array (its `getDay()` value). -/
def jsWeekdayIndex : DayOfWeek → Nat
  | .sunday => 0
  | .monday => 1
  | .tuesday => 2
  | .wednesday => 3
  | .thursday => 4
  | .friday => 5
  | .saturday => 6

/-- Embedding of `DateUtils.getDayOfWeek` (dateUtils.ts lines 4–15):
`days[date.getDay()]`. -/
def getDayOfWeek (d : CalDate) : DayOfWeek := jsWeekday (getDay d)

def pad2 (n : Nat) : String := if n < 10 then "0" ++ toString n else toString n

/-- ISO `YYYY-MM-DD` rendering of one calendar day (years below 1000 are
not zero-padded; the engine is only exercised on four-digit years). -/
def isoDayString (d : CalDate) : String :=
  toString d.year ++ "-" ++ pad2 d.month ++ "-" ++ pad2 d.day

/-- The calendar day before `d`. -/
def prevCalDay (d : CalDate) : CalDate :=
  if d.day > 1 then ⟨d.year, d.month, d.day - 1⟩
  else if d.month > 1 then ⟨d.year, d.month - 1, daysInMonth d.year (d.month - 1)⟩
  else ⟨d.year - 1, 12, 31⟩

/-- Embedding of `DateUtils.formatDate` (dateUtils.ts lines 73–75):
`date.toISOString().split('T')[0]`.  The dates the engine formats are
local-midnight `Date`s and `toISOString` renders the same instant in
UTC, so east of UTC (`tz < 0`) local midnight lies on the previous UTC
calendar day and the rendered date is one day early; at UTC or west of
it (`0 ≤ tz`, below 24 h) the day is unchanged. -/
def formatDate (tz : Int) (d : CalDate) : String :=
  if tz < 0 then isoDayString (prevCalDay d) else isoDayString d

/-- The monthly shift factory (lines 797–826): one shift per (calendar
date, enabled kind for that date's weekday). -/
def buildMonthShifts (cfg : ScheduleConfiguration) (now : Nat) (rand : Nat → String)
    (tz : Int) : List CalDate → Nat → Except GenError (List Shift)
  | [], _ => .ok []
  | date :: rest, k =>
    let dow := getDayOfWeek date
    match cfg.dayConfigurations dow with
    | none => .error .typeError
    | some dayConfig =>
      let dateString := formatDate tz date
      let dayShifts := dayConfig.enabledShiftTypes.enum.map fun p =>
        mkShift dow (some dateString) dayConfig p.2 now (rand (k + p.1))
      match buildMonthShifts cfg now rand tz rest (k + dayConfig.enabledShiftTypes.length) with
      | .error e => .error e
      | .ok more => .ok (dayShifts ++ more)

/-- Translation of `generateMonthlySchedule` (lines 782–843).
`monthDate` stands for the local calendar components of the parsed
`new Date(monthStartDate)` (the string-to-`Date` parse itself is the
JavaScript `Date` constructor, outside the engine); `tz` is the ambient
timezone offset consumed by `DateUtils.formatDate`. -/
def generateMonthlySchedule (staffList : List Staff) (cfg : ScheduleConfiguration)
    (monthDate : CalDate) (now : Nat) (rand : Nat → String) (tz : Int) :
    Except GenError Schedule :=
  match buildMonthShifts cfg now rand tz (getMonthDates monthDate) 0 with
  | .error e => .error e
  | .ok shifts =>
    .ok { id := "monthly-schedule-" ++ toString now
          weekStartDate := formatDate tz monthDate
          monthStartDate := some (formatDate tz (getMonthStart monthDate))
          scheduleType := some "monthly"
          shifts := autoAssignMonthlyStaff cfg staffList shifts
          isPublished := false
          createdAt := mkISOTimestamp now
          updatedAt := mkISOTimestamp now }

/-- The combined result of the two fill phases for a shift that starts
with no assignments, with the emergency pool abstracted. -/
def fillResult (shift : Shift) (cands : List (Staff × Q)) (m : AssignMap)
    (em : List Staff) : FillState :=
  if (primaryLoop shift cands ⟨[], 0, m⟩).assignedCount < shift.minimumStaff
  then emergencyLoop shift em (primaryLoop shift cands ⟨[], 0, m⟩)
  else primaryLoop shift cands ⟨[], 0, m⟩

/-! ## Concrete fixtures for witnesses and counterexamples -/

def fixPrefs : StaffPreferences :=
  { desiredHoursPerWeek := 40, preferredShifts := [], preferredDaysOff := []
    unavailableDates := [], holidays := [] }

def fixStaff1 : Staff :=
  { id := "s1", name := "Ann", email := "", skills := [], preferences := fixPrefs
    isActive := true }

def fixStaff2 : Staff :=
  { id := "s2", name := "Ben", email := "", skills := [], preferences := fixPrefs
    isActive := true }

def fixEmptyDay : DayScheduleConfig :=
  { enabledShiftTypes := [], shiftSkillRequirements := fun _ => some []
    shiftStaffRequirements := fun _ => some ⟨1, 2⟩ }

def fixMondayDay : DayScheduleConfig :=
  { enabledShiftTypes := [ShiftType.morning], shiftSkillRequirements := fun _ => some []
    shiftStaffRequirements := fun _ => some ⟨1, 2⟩ }

def fixWeights : ScoringWeights :=
  { preferredShift := 30, nonPreferredShift := -10, preferredDayOff := -20
    matchingSkill := 15, needsMoreHours := 5 }

/-- A configuration enabling a single morning shift on Mondays. -/
def fixCfg : ScheduleConfiguration :=
  { maxConsecutiveShifts := 3, minRestHoursBetweenShifts := 12, maxHoursPerWeek := 40
    minHoursPerWeek := 0, requireSkillMatch := true, minimumSkillsRequired := false
    dayConfigurations := fun d =>
      if d == DayOfWeek.monday then some fixMondayDay else some fixEmptyDay
    weights := fixWeights }

def fixRand : Nat → String := fun k => "r" ++ toString k

def fixDummySchedule : Schedule :=
  { id := "", weekStartDate := "", monthStartDate := none, scheduleType := none
    shifts := [], isPublished := true, createdAt := "", updatedAt := "" }

def fixDummyShift : Shift :=
  { id := "", type := ShiftType.morning, day := DayOfWeek.monday, date := none
    startTime := "", endTime := "", requiredSkills := [], minimumStaff := 0
    maximumStaff := 0, assignedStaff := [] }

def fixWeeklySch : Schedule :=
  (generateSchedule [fixStaff1] fixCfg "2024-01-01" 0 fixRand).toOption.getD fixDummySchedule

def fixWeeklyShift : Shift := fixWeeklySch.shifts.headD fixDummyShift

def fixMonthlySch : Schedule :=
  (generateMonthlySchedule [fixStaff1] fixCfg ⟨2024, 1, 1⟩ 0 fixRand 0).toOption.getD
    fixDummySchedule

def fixMonthlyShift : Shift := fixMonthlySch.shifts.headD fixDummyShift

def fixWeekly2Sch : Schedule :=
  (generateSchedule [fixStaff1, fixStaff2] fixCfg "2024-01-01" 0 fixRand).toOption.getD
    fixDummySchedule

def fixWeekly2Shift : Shift := fixWeekly2Sch.shifts.headD fixDummyShift

def fixOverMinShift : Shift :=
  { id := "x", type := ShiftType.night, day := DayOfWeek.friday, date := none
    startTime := "23:00", endTime := "07:00", requiredSkills := [], minimumStaff := 3
    maximumStaff := 1, assignedStaff := [] }

def fixMorningShift : Shift :=
  { id := "m", type := ShiftType.morning, day := DayOfWeek.monday
    date := some "2024-01-08", startTime := "07:00", endTime := "15:00"
    requiredSkills := [], minimumStaff := 1, maximumStaff := 2, assignedStaff := [] }

def fixTightShift : Shift :=
  { id := "t", type := ShiftType.morning, day := DayOfWeek.monday
    date := some "2024-01-01", startTime := "07:00", endTime := "15:00"
    requiredSkills := [], minimumStaff := 1, maximumStaff := 1, assignedStaff := [] }

def fixStaffHolidayActual : Staff :=
  { id := "h1", name := "Cara", email := "", skills := []
    preferences := { fixPrefs with holidays := ["2024-03-11"] }, isActive := true }

def fixStaffHolidayPlaceholder : Staff :=
  { id := "h2", name := "Dan", email := "", skills := []
    preferences := { fixPrefs with holidays := ["2024-01-01"] }, isActive := true }

def fixMar11Sch : Schedule :=
  (generateSchedule [fixStaffHolidayActual] fixCfg "2024-03-11" 0 fixRand).toOption.getD
    fixDummySchedule

def fixMar11Shift : Shift := fixMar11Sch.shifts.headD fixDummyShift

/-! ## Spec-side rest-time rule -/

/-- The rest gap the spec describes for two shifts on adjacent days: the
later day's start clock-hour plus the hours left after the earlier day's
end clock-hour — wrapping through 24 (a shift crossing midnight, such as
night, is represented with end-hour 7 below its start-hour 23). -/
def restGap (shift a : Shift) : Q :=
  if dayIndex shift.day > dayIndex a.day then
    getShiftStartHour shift.type + (24 - getShiftEndHour a.type)
  else
    getShiftStartHour a.type + (24 - getShiftEndHour shift.type)

/-- The claim's reading of the rest-time rule: some committed shift on an
adjacent day leaves a gap below `minRestHoursBetweenShifts`, or some
committed shift on the same day overlaps outright. -/
def restTimeSpec (cfg : ScheduleConfiguration) (shift : Shift) (cur : List Shift) : Prop :=
  ∃ a ∈ cur,
    (((dayIndex shift.day : Int) - (dayIndex a.day : Int)).natAbs = 1
        ∧ restGap shift a < cfg.minRestHoursBetweenShifts)
      ∨ (dayIndex shift.day = dayIndex a.day
        ∧ ¬ (getShiftEndHour shift.type ≤ getShiftStartHour a.type
            ∨ getShiftEndHour a.type ≤ getShiftStartHour shift.type))

def fixBadDay : DayScheduleConfig :=
  { enabledShiftTypes := [ShiftType.morning], shiftSkillRequirements := fun _ => some []
    shiftStaffRequirements := fun _ => some ⟨3, 1⟩ }

/-- Configuration `fixCfg` altered so Monday demands `minimumStaff = 3 > maximumStaff = 1`. -/
def fixBadCfg : ScheduleConfiguration :=
  { fixCfg with dayConfigurations := fun d =>
      if d == DayOfWeek.monday then some fixBadDay else some fixEmptyDay }

def fixBadSch : Schedule :=
  (generateSchedule [fixStaff1] fixBadCfg "2024-01-01" 0 fixRand).toOption.getD
    fixDummySchedule

def fixMissingCfg : ScheduleConfiguration :=
  { fixCfg with dayConfigurations := fun d =>
      if d == DayOfWeek.monday then none else some fixEmptyDay }

/-! ## Lemmas about the fill loops -/

theorem primaryLoop_spec (shift : Shift) (cands : List (Staff × Q)) :
    ∀ st : FillState, ∃ k,
      (primaryLoop shift cands st).assignedStaff
          = st.assignedStaff ++ ((cands.map fun p => p.1.id).take k)
        ∧ (primaryLoop shift cands st).assignedCount = st.assignedCount + k := by
  induction cands with
  | nil => intro st; exact ⟨0, by simp [primaryLoop]⟩
  | cons c rest ih =>
    intro st
    obtain ⟨cand, sc⟩ := c
    simp only [primaryLoop]
    split
    · exact ⟨0, by simp⟩
    · split
      · exact ⟨0, by simp⟩
      · obtain ⟨k, h1, h2⟩ := ih
          ⟨st.assignedStaff ++ [cand.id], st.assignedCount + 1,
            mapPush st.assignments cand.id shift⟩
        refine ⟨k + 1, ?_, ?_⟩
        · simp only [h1, List.map_cons, List.take_succ_cons, List.append_assoc,
            List.singleton_append]
        · simp only [h2]; omega

theorem emergencyLoop_spec (shift : Shift) (staffL : List Staff) :
    ∀ st : FillState, ∃ k,
      (emergencyLoop shift staffL st).assignedStaff
          = st.assignedStaff ++ ((staffL.map Staff.id).take k)
        ∧ (emergencyLoop shift staffL st).assignedCount = st.assignedCount + k := by
  induction staffL with
  | nil => intro st; exact ⟨0, by simp [emergencyLoop]⟩
  | cons s rest ih =>
    intro st
    simp only [emergencyLoop]
    split
    · exact ⟨0, by simp⟩
    · split
      · exact ⟨0, by simp⟩
      · obtain ⟨k, h1, h2⟩ := ih
          ⟨st.assignedStaff ++ [s.id], st.assignedCount + 1,
            mapPush st.assignments s.id shift⟩
        refine ⟨k + 1, ?_, ?_⟩
        · simp only [h1, List.map_cons, List.take_succ_cons, List.append_assoc,
            List.singleton_append]
        · simp only [h2]; omega

theorem primaryLoop_count_le (shift : Shift) (cands : List (Staff × Q)) :
    ∀ st : FillState, st.assignedCount ≤ shift.maximumStaff →
      (primaryLoop shift cands st).assignedCount ≤ shift.maximumStaff := by
  induction cands with
  | nil => intro st h; simpa [primaryLoop] using h
  | cons c rest ih =>
    intro st h
    obtain ⟨cand, sc⟩ := c
    simp only [primaryLoop]
    split
    · exact h
    · split
      · exact h
      · rename_i hmax _
        exact ih _ (by simp at hmax ⊢; omega)

theorem emergencyLoop_count_le (shift : Shift) (staffL : List Staff) :
    ∀ st : FillState, st.assignedCount ≤ shift.maximumStaff →
      (emergencyLoop shift staffL st).assignedCount ≤ shift.maximumStaff := by
  induction staffL with
  | nil => intro st h; simpa [emergencyLoop] using h
  | cons s rest ih =>
    intro st h
    simp only [emergencyLoop]
    split
    · exact h
    · split
      · exact h
      · rename_i _ hmax
        exact ih _ (by simp at hmax ⊢; omega)

theorem primaryLoop_count_ge (shift : Shift)
    (hmin : shift.minimumStaff ≤ shift.maximumStaff) (cands : List (Staff × Q)) :
    ∀ st : FillState,
      min shift.minimumStaff (st.assignedCount + cands.length)
        ≤ (primaryLoop shift cands st).assignedCount := by
  induction cands with
  | nil => intro st; simp only [primaryLoop, List.length_nil]; omega
  | cons c rest ih =>
    intro st
    obtain ⟨cand, sc⟩ := c
    simp only [primaryLoop]
    split
    · rename_i hmax; simp only [List.length_cons]; omega
    · split
      · rename_i hsel
        have := (Bool.and_eq_true _ _).mp hsel
        have h1 : shift.minimumStaff ≤ st.assignedCount := of_decide_eq_true this.1
        simp only [List.length_cons]; omega
      · have h2 := ih ⟨st.assignedStaff ++ [cand.id], st.assignedCount + 1,
          mapPush st.assignments cand.id shift⟩
        simp only [List.length_cons] at h2 ⊢
        omega

theorem insertByKeyDesc_perm {α : Type} (key : α → Q) (x : α) (l : List α) :
    (insertByKeyDesc key x l).Perm (x :: l) := by
  induction l with
  | nil => exact List.Perm.refl _
  | cons y ys ih =>
    simp only [insertByKeyDesc]
    split
    · exact List.Perm.refl _
    · exact (ih.cons y).trans (List.Perm.swap x y ys)

theorem sortByKeyDesc_perm {α : Type} (key : α → Q) (l : List α) :
    (sortByKeyDesc key l).Perm l := by
  induction l with
  | nil => exact List.Perm.refl _
  | cons x xs ih =>
    exact (insertByKeyDesc_perm key x (sortByKeyDesc key xs)).trans (ih.cons x)

theorem processShift_minimumStaff (staffList : List Staff)
    (score : Staff → List Shift → Shift → Q) (m : AssignMap) (shift : Shift) :
    (processShift staffList score m shift).1.minimumStaff = shift.minimumStaff := rfl

theorem processShift_maximumStaff (staffList : List Staff)
    (score : Staff → List Shift → Shift → Q) (m : AssignMap) (shift : Shift) :
    (processShift staffList score m shift).1.maximumStaff = shift.maximumStaff := rfl

theorem fillResult_length_le (shift : Shift) (cands : List (Staff × Q))
    (m : AssignMap) (em : List Staff) :
    (fillResult shift cands m em).assignedStaff.length ≤ shift.maximumStaff := by
  obtain ⟨k1, ha1, hc1⟩ := primaryLoop_spec shift cands ⟨[], 0, m⟩
  have hcle1 := primaryLoop_count_le shift cands ⟨[], 0, m⟩ (Nat.zero_le _)
  unfold fillResult
  split
  · obtain ⟨k2, ha2, hc2⟩ := emergencyLoop_spec shift em (primaryLoop shift cands ⟨[], 0, m⟩)
    have hcle2 := emergencyLoop_count_le shift em (primaryLoop shift cands ⟨[], 0, m⟩) hcle1
    rw [ha2, ha1] at *
    rw [hc2, hc1] at hcle2
    simp only [List.nil_append, List.length_append, List.length_take] at *
    omega
  · rw [ha1, hc1] at *
    simp only [List.nil_append, List.length_take] at *
    omega

theorem fillResult_min_le (shift : Shift) (cands : List (Staff × Q))
    (m : AssignMap) (em : List Staff)
    (hmm : shift.minimumStaff ≤ shift.maximumStaff)
    (hlen : shift.minimumStaff ≤ cands.length) :
    shift.minimumStaff ≤ (fillResult shift cands m em).assignedStaff.length := by
  obtain ⟨k1, ha1, hc1⟩ := primaryLoop_spec shift cands ⟨[], 0, m⟩
  have hge := primaryLoop_count_ge shift hmm cands ⟨[], 0, m⟩
  rw [hc1] at hge
  have hz : (FillState.mk [] 0 m).assignedCount = 0 := rfl
  rw [hz] at hge
  rw [Nat.zero_add, Nat.min_eq_left (by omega)] at hge
  unfold fillResult
  split
  · rename_i hlt
    exact absurd (by rw [hc1, hz, Nat.zero_add]; omega) (Nat.not_lt.mpr (le_of_lt hlt))
  · rw [ha1]
    simp only [List.nil_append, List.length_take, List.length_map]
    omega

theorem fillResult_nodup (shift : Shift) (cands : List (Staff × Q))
    (m : AssignMap) (em : List Staff)
    (hnd : (cands.map fun p => p.1.id).Nodup)
    (hem : (em.map Staff.id).Nodup)
    (hdisj : ∀ s ∈ em, s.id ∉ (primaryLoop shift cands ⟨[], 0, m⟩).assignedStaff) :
    (fillResult shift cands m em).assignedStaff.Nodup := by
  obtain ⟨k1, ha1, hc1⟩ := primaryLoop_spec shift cands ⟨[], 0, m⟩
  have hnd1 : (primaryLoop shift cands ⟨[], 0, m⟩).assignedStaff.Nodup := by
    rw [ha1]
    simpa using ((cands.map fun p => p.1.id).take_sublist k1).nodup hnd
  unfold fillResult
  split
  · obtain ⟨k2, ha2, hc2⟩ := emergencyLoop_spec shift em (primaryLoop shift cands ⟨[], 0, m⟩)
    rw [ha2]
    refine List.Nodup.append hnd1 (((em.map Staff.id).take_sublist k2).nodup hem) ?_
    intro a ha hta
    have hmem : a ∈ em.map Staff.id := ((em.map Staff.id).take_sublist k2).mem hta
    obtain ⟨s, hs, rfl⟩ := List.mem_map.mp hmem
    exact hdisj s hs ha
  · exact hnd1

/-- Both fill phases stop appending at `maximumStaff`, so a shift that
starts with no assignments never ends above it — regardless of how
`minimumStaff` compares to `maximumStaff`. -/
theorem processShift_length_le (staffList : List Staff)
    (score : Staff → List Shift → Shift → Q) (m : AssignMap) (shift : Shift)
    (h0 : shift.assignedStaff = []) :
    (processShift staffList score m shift).1.assignedStaff.length
      ≤ shift.maximumStaff := by
  simp only [processShift, h0]
  exact fillResult_length_le shift _ m _

theorem processShift_min_le (staffList : List Staff)
    (score : Staff → List Shift → Shift → Q) (m : AssignMap) (shift : Shift)
    (h0 : shift.assignedStaff = [])
    (hmm : shift.minimumStaff ≤ shift.maximumStaff)
    (hact : shift.minimumStaff ≤ (staffList.filter fun s => s.isActive).length) :
    shift.minimumStaff ≤ (processShift staffList score m shift).1.assignedStaff.length := by
  simp only [processShift, h0]
  apply fillResult_min_le shift _ m _ hmm
  have hfil : (staffList.filter fun staff =>
        staff.isActive && !(([] : List String).contains staff.id))
      = staffList.filter fun s => s.isActive := by
    apply List.filter_congr
    intro a _
    simp
  rw [(sortByKeyDesc_perm _ _).length_eq, List.length_map, hfil]
  exact hact

theorem processShift_nodup (staffList : List Staff)
    (score : Staff → List Shift → Shift → Q) (m : AssignMap) (shift : Shift)
    (h0 : shift.assignedStaff = [])
    (hnd : (staffList.map Staff.id).Nodup) :
    (processShift staffList score m shift).1.assignedStaff.Nodup := by
  simp only [processShift, h0]
  apply fillResult_nodup shift _ m _
  · have hperm :
        ((sortByKeyDesc (fun p => p.2)
          ((staffList.filter fun staff =>
            staff.isActive && !(([] : List String).contains staff.id)).map
              fun staff => (staff, score staff (mapGet m staff.id) shift))).map
          fun p => p.1.id).Perm
        ((staffList.filter fun staff =>
            staff.isActive && !(([] : List String).contains staff.id)).map Staff.id) := by
      have h1 := (sortByKeyDesc_perm (fun p : Staff × Q => p.2)
        ((staffList.filter fun staff =>
          staff.isActive && !(([] : List String).contains staff.id)).map
            fun staff => (staff, score staff (mapGet m staff.id) shift))).map
          fun p : Staff × Q => p.1.id
      simpa [Function.comp] using h1
    exact hperm.nodup_iff.mpr (((List.filter_sublist staffList).map Staff.id).nodup hnd)
  · exact ((List.filter_sublist staffList).map Staff.id).nodup hnd
  · intro s hs
    have := (List.mem_filter.mp hs).2
    have hb := (Bool.and_eq_true _ _).mp this
    simpa using hb.2

/-- Every shift in the output of `processAll` is the `processShift` image
of some input shift (under the assignments map in force at its turn). -/
theorem processAll_mem (staffList : List Staff) (score : Staff → List Shift → Shift → Q) :
    ∀ (l : List (Nat × Shift)) (m : AssignMap) (i : Nat) (s : Shift),
      (i, s) ∈ (processAll staffList score m l).1 →
      ∃ t m2, t ∈ l.map Prod.snd ∧ s = (processShift staffList score m2 t).1 := by
  intro l
  induction l with
  | nil => intro m i s h; exact absurd h (List.not_mem_nil _)
  | cons p rest ih =>
    intro m i s h
    obtain ⟨j, t⟩ := p
    simp only [processAll, List.mem_cons, Prod.mk.injEq] at h
    rcases h with ⟨_, hs⟩ | h
    · exact ⟨t, m, by simp, hs⟩
    · obtain ⟨t2, m2, ht, hs⟩ := ih _ i s h
      refine ⟨t2, m2, ?_, hs⟩
      simp only [List.map_cons, List.mem_cons]
      exact Or.inr ht

theorem restoreOrder_mem (n : Nat) (processed : List (Nat × Shift)) (s : Shift)
    (h : s ∈ restoreOrder n processed) : ∃ i, (i, s) ∈ processed := by
  unfold restoreOrder at h
  obtain ⟨i, _, hsome⟩ := List.mem_filterMap.mp h
  cases hfind : processed.find? fun p => p.1 == i with
  | none => rw [hfind] at hsome; simp at hsome
  | some p =>
    rw [hfind] at hsome
    simp at hsome
    refine ⟨p.1, ?_⟩
    rw [← hsome]
    exact List.mem_of_find?_eq_some hfind

theorem autoAssignWith_mem (staffList : List Staff) (prty : Shift → Q)
    (score : Staff → List Shift → Shift → Q) (shifts : List Shift) (s : Shift)
    (h : s ∈ autoAssignWith staffList prty score shifts) :
    ∃ t m2, t ∈ shifts ∧ s = (processShift staffList score m2 t).1 := by
  unfold autoAssignWith at h
  obtain ⟨i, hi⟩ := restoreOrder_mem _ _ _ h
  obtain ⟨t, m2, ht, hs⟩ := processAll_mem staffList score _ _ i s hi
  refine ⟨t, m2, ?_, hs⟩
  have hperm := (sortByKeyDesc_perm (fun p : Nat × Shift => prty p.2) shifts.enum).map Prod.snd
  have hmem := hperm.mem_iff.mp ht
  simpa [List.enum_map_snd] using hmem

/-- Shifts leave the weekly factory with an empty `assignedStaff`. -/
theorem buildWeekShifts_empty (cfg : ScheduleConfiguration) (now : Nat)
    (rand : Nat → String) :
    ∀ (days : List DayOfWeek) (k : Nat) (shifts : List Shift),
      buildWeekShifts cfg now rand days k = .ok shifts →
      ∀ s ∈ shifts, s.assignedStaff = [] := by
  intro days
  induction days with
  | nil =>
    intro k shifts h s hs
    simp only [buildWeekShifts, Except.ok.injEq] at h
    subst h
    simp at hs
  | cons d rest ih =>
    intro k shifts h s hs
    simp only [buildWeekShifts] at h
    split at h
    · exact absurd h (by simp)
    · split at h
      · exact absurd h (by simp)
      · rename_i more hrec
        simp only [Except.ok.injEq] at h
        subst h
        rcases List.mem_append.mp hs with h1 | h2
        · obtain ⟨p, _, rfl⟩ := List.mem_map.mp h1
          rfl
        · exact ih _ _ hrec s h2

/-- Shifts leave the monthly factory with an empty `assignedStaff`. -/
theorem buildMonthShifts_empty (cfg : ScheduleConfiguration) (now : Nat)
    (rand : Nat → String) (tz : Int) :
    ∀ (dates : List CalDate) (k : Nat) (shifts : List Shift),
      buildMonthShifts cfg now rand tz dates k = .ok shifts →
      ∀ s ∈ shifts, s.assignedStaff = [] := by
  intro dates
  induction dates with
  | nil =>
    intro k shifts h s hs
    simp only [buildMonthShifts, Except.ok.injEq] at h
    subst h
    simp at hs
  | cons d rest ih =>
    intro k shifts h s hs
    simp only [buildMonthShifts] at h
    split at h
    · exact absurd h (by simp)
    · split at h
      · exact absurd h (by simp)
      · rename_i more hrec
        simp only [Except.ok.injEq] at h
        subst h
        rcases List.mem_append.mp hs with h1 | h2
        · obtain ⟨p, _, rfl⟩ := List.mem_map.mp h1
          rfl
        · exact ih _ _ hrec s h2

theorem generateSchedule_ok (staffList : List Staff) (cfg : ScheduleConfiguration)
    (weekStartDate : String) (now : Nat) (rand : Nat → String) (sch : Schedule)
    (h : generateSchedule staffList cfg weekStartDate now rand = .ok sch) :
    ∃ shifts0, buildWeekShifts cfg now rand daysOfWeek 0 = .ok shifts0
      ∧ sch.shifts = autoAssignStaff cfg staffList shifts0
      ∧ sch.isPublished = false ∧ sch.scheduleType = some "weekly" := by
  unfold generateSchedule at h
  split at h
  · exact absurd h (by simp)
  · rename_i shifts0 hb
    simp only [Except.ok.injEq] at h
    subst h
    exact ⟨shifts0, hb, rfl, rfl, rfl⟩

theorem generateMonthlySchedule_ok (staffList : List Staff) (cfg : ScheduleConfiguration)
    (monthDate : CalDate) (now : Nat) (rand : Nat → String) (tz : Int) (sch : Schedule)
    (h : generateMonthlySchedule staffList cfg monthDate now rand tz = .ok sch) :
    ∃ shifts0, buildMonthShifts cfg now rand tz (getMonthDates monthDate) 0 = .ok shifts0
      ∧ sch.shifts = autoAssignMonthlyStaff cfg staffList shifts0
      ∧ sch.isPublished = false ∧ sch.scheduleType = some "monthly" := by
  unfold generateMonthlySchedule at h
  split at h
  · exact absurd h (by simp)
  · rename_i shifts0 hb
    simp only [Except.ok.injEq] at h
    subst h
    exact ⟨shifts0, hb, rfl, rfl, rfl⟩

/-- C10: every schedule either generator returns is unpublished, and the
`scheduleType` discriminator matches the generator that produced it. -/
theorem C10_engine_returns_unpublished (staffList : List Staff) (cfg : ScheduleConfiguration) :
    (∀ (weekStartDate : String) (now : Nat) (rand : Nat → String) (sch : Schedule),
      generateSchedule staffList cfg weekStartDate now rand = .ok sch →
      sch.isPublished = false ∧ sch.scheduleType = some "weekly")
    ∧ (∀ (monthDate : CalDate) (now : Nat) (rand : Nat → String) (tz : Int) (sch : Schedule),
      generateMonthlySchedule staffList cfg monthDate now rand tz = .ok sch →
      sch.isPublished = false ∧ sch.scheduleType = some "monthly") := by
  constructor
  · intro wsd now rand sch h
    obtain ⟨_, _, _, h1, h2⟩ := generateSchedule_ok staffList cfg wsd now rand sch h
    exact ⟨h1, h2⟩
  · intro monthDate now rand tz sch h
    obtain ⟨_, _, _, h1, h2⟩ :=
      generateMonthlySchedule_ok staffList cfg monthDate now rand tz sch h
    exact ⟨h1, h2⟩

/-- C9: even when `minimumStaff` exceeds `maximumStaff`, processing a
freshly created shift never pushes its `assignedStaff` length above
`maximumStaff` — both fill loops stop appending at `maximumStaff`. -/
theorem C9_fill_stops_at_maximum (staffList : List Staff)
    (score : Staff → List Shift → Shift → Q) (m : AssignMap) (shift : Shift)
    (h0 : shift.assignedStaff = [])
    (hgt : shift.maximumStaff < shift.minimumStaff) :
    (processShift staffList score m shift).1.assignedStaff.length ≤ shift.maximumStaff :=
  processShift_length_le staffList score m shift h0

/-- C1: for every generated shift, weekly or monthly, if the active
roster covers `minimumStaff` (and `minimumStaff ≤ maximumStaff`), the
shift ends generation with at least `minimumStaff` assignees: the primary
fill only stops early once the minimum is met, and otherwise exhausts the
whole active pool, with the emergency fill as backstop. -/
theorem C1_emergency_fill_guarantee (staffList : List Staff) (cfg : ScheduleConfiguration) :
    (∀ (weekStartDate : String) (now : Nat) (rand : Nat → String) (sch : Schedule),
      generateSchedule staffList cfg weekStartDate now rand = .ok sch →
      ∀ s ∈ sch.shifts, s.minimumStaff ≤ s.maximumStaff →
        s.minimumStaff ≤ (staffList.filter fun st => st.isActive).length →
        s.minimumStaff ≤ s.assignedStaff.length)
    ∧ (∀ (monthDate : CalDate) (now : Nat) (rand : Nat → String) (tz : Int) (sch : Schedule),
      generateMonthlySchedule staffList cfg monthDate now rand tz = .ok sch →
      ∀ s ∈ sch.shifts, s.minimumStaff ≤ s.maximumStaff →
        s.minimumStaff ≤ (staffList.filter fun st => st.isActive).length →
        s.minimumStaff ≤ s.assignedStaff.length) := by
  constructor
  · intro wsd now rand sch h s hs hmm hact
    obtain ⟨shifts0, hb, hsh, _, _⟩ := generateSchedule_ok staffList cfg wsd now rand sch h
    rw [hsh] at hs
    unfold autoAssignStaff at hs
    obtain ⟨t, m2, ht, rfl⟩ := autoAssignWith_mem _ _ _ _ _ hs
    have ht0 := buildWeekShifts_empty cfg now rand daysOfWeek 0 shifts0 hb t ht
    rw [processShift_minimumStaff] at hmm hact ⊢
    rw [processShift_maximumStaff] at hmm
    exact processShift_min_le _ _ _ _ ht0 hmm hact
  · intro monthDate now rand tz sch h s hs hmm hact
    obtain ⟨shifts0, hb, hsh, _, _⟩ :=
      generateMonthlySchedule_ok staffList cfg monthDate now rand tz sch h
    rw [hsh] at hs
    unfold autoAssignMonthlyStaff at hs
    obtain ⟨t, m2, ht, rfl⟩ := autoAssignWith_mem _ _ _ _ _ hs
    have ht0 :=
      buildMonthShifts_empty cfg now rand tz (getMonthDates monthDate) 0 shifts0 hb t ht
    rw [processShift_minimumStaff] at hmm hact ⊢
    rw [processShift_maximumStaff] at hmm
    exact processShift_min_le _ _ _ _ ht0 hmm hact

/-- C2: when the roster's staff ids are pairwise distinct, every
generated shift (weekly or monthly) carries no duplicate staff id and
never more than `maximumStaff` assignees. -/
theorem C2_no_duplicates_within_capacity (staffList : List Staff) (cfg : ScheduleConfiguration)
    (hnd : (staffList.map Staff.id).Nodup) :
    (∀ (weekStartDate : String) (now : Nat) (rand : Nat → String) (sch : Schedule),
      generateSchedule staffList cfg weekStartDate now rand = .ok sch →
      ∀ s ∈ sch.shifts, s.assignedStaff.Nodup ∧ s.assignedStaff.length ≤ s.maximumStaff)
    ∧ (∀ (monthDate : CalDate) (now : Nat) (rand : Nat → String) (tz : Int) (sch : Schedule),
      generateMonthlySchedule staffList cfg monthDate now rand tz = .ok sch →
      ∀ s ∈ sch.shifts, s.assignedStaff.Nodup ∧ s.assignedStaff.length ≤ s.maximumStaff) := by
  constructor
  · intro wsd now rand sch h s hs
    obtain ⟨shifts0, hb, hsh, _, _⟩ := generateSchedule_ok staffList cfg wsd now rand sch h
    rw [hsh] at hs
    unfold autoAssignStaff at hs
    obtain ⟨t, m2, ht, rfl⟩ := autoAssignWith_mem _ _ _ _ _ hs
    have ht0 := buildWeekShifts_empty cfg now rand daysOfWeek 0 shifts0 hb t ht
    refine ⟨processShift_nodup _ _ _ _ ht0 hnd, ?_⟩
    rw [processShift_maximumStaff]
    exact processShift_length_le _ _ _ _ ht0
  · intro monthDate now rand tz sch h s hs
    obtain ⟨shifts0, hb, hsh, _, _⟩ :=
      generateMonthlySchedule_ok staffList cfg monthDate now rand tz sch h
    rw [hsh] at hs
    unfold autoAssignMonthlyStaff at hs
    obtain ⟨t, m2, ht, rfl⟩ := autoAssignWith_mem _ _ _ _ _ hs
    have ht0 :=
      buildMonthShifts_empty cfg now rand tz (getMonthDates monthDate) 0 shifts0 hb t ht
    refine ⟨processShift_nodup _ _ _ _ ht0 hnd, ?_⟩
    rw [processShift_maximumStaff]
    exact processShift_length_le _ _ _ _ ht0

theorem C1_emergency_fill_guarantee_witness :
    (generateSchedule [fixStaff1] fixCfg "2024-01-01" 0 fixRand = .ok fixWeeklySch
      ∧ fixWeeklyShift ∈ fixWeeklySch.shifts
      ∧ fixWeeklyShift.minimumStaff ≤ fixWeeklyShift.maximumStaff
      ∧ fixWeeklyShift.minimumStaff ≤ ([fixStaff1].filter fun st => st.isActive).length
      ∧ fixWeeklyShift.minimumStaff ≤ fixWeeklyShift.assignedStaff.length)
    ∧ (generateMonthlySchedule [fixStaff1] fixCfg ⟨2024, 1, 1⟩ 0 fixRand 0 = .ok fixMonthlySch
      ∧ fixMonthlyShift ∈ fixMonthlySch.shifts
      ∧ fixMonthlyShift.minimumStaff ≤ fixMonthlyShift.maximumStaff
      ∧ fixMonthlyShift.minimumStaff ≤ ([fixStaff1].filter fun st => st.isActive).length
      ∧ fixMonthlyShift.minimumStaff ≤ fixMonthlyShift.assignedStaff.length) :=
  ⟨⟨by decide, by decide, by decide, by decide,
    (C1_emergency_fill_guarantee [fixStaff1] fixCfg).1 "2024-01-01" 0 fixRand fixWeeklySch
      (by decide) fixWeeklyShift (by decide) (by decide) (by decide)⟩,
   ⟨by decide, by decide, by decide, by decide,
    (C1_emergency_fill_guarantee [fixStaff1] fixCfg).2 ⟨2024, 1, 1⟩ 0 fixRand 0 fixMonthlySch
      (by decide) fixMonthlyShift (by decide) (by decide) (by decide)⟩⟩

theorem C2_no_duplicates_within_capacity_witness :
    ([fixStaff1, fixStaff2].map Staff.id).Nodup
      ∧ generateSchedule [fixStaff1, fixStaff2] fixCfg "2024-01-01" 0 fixRand
          = .ok fixWeekly2Sch
      ∧ fixWeekly2Shift ∈ fixWeekly2Sch.shifts
      ∧ fixWeekly2Shift.assignedStaff.Nodup
      ∧ fixWeekly2Shift.assignedStaff.length ≤ fixWeekly2Shift.maximumStaff :=
  ⟨by decide, by decide, by decide,
    (C2_no_duplicates_within_capacity [fixStaff1, fixStaff2] fixCfg (by decide)).1
      "2024-01-01" 0 fixRand fixWeekly2Sch (by decide) fixWeekly2Shift (by decide)⟩

theorem C9_fill_stops_at_maximum_witness :
    fixOverMinShift.assignedStaff = []
      ∧ fixOverMinShift.maximumStaff < fixOverMinShift.minimumStaff
      ∧ (processShift [fixStaff1, fixStaff2] (fun _ _ _ => (0 : Q)) []
          fixOverMinShift).1.assignedStaff.length ≤ fixOverMinShift.maximumStaff :=
  ⟨rfl, by decide,
    C9_fill_stops_at_maximum [fixStaff1, fixStaff2] (fun _ _ _ => (0 : Q)) []
      fixOverMinShift rfl (by decide)⟩

theorem C10_engine_returns_unpublished_witness :
    (generateSchedule [fixStaff1] fixCfg "2024-01-01" 0 fixRand = .ok fixWeeklySch
      ∧ fixWeeklySch.isPublished = false ∧ fixWeeklySch.scheduleType = some "weekly")
    ∧ (generateMonthlySchedule [fixStaff1] fixCfg ⟨2024, 1, 1⟩ 0 fixRand 0 = .ok fixMonthlySch
      ∧ fixMonthlySch.isPublished = false ∧ fixMonthlySch.scheduleType = some "monthly") :=
  ⟨⟨by decide,
    (C10_engine_returns_unpublished [fixStaff1] fixCfg).1 "2024-01-01" 0 fixRand fixWeeklySch
      (by decide)⟩,
   ⟨by decide,
    (C10_engine_returns_unpublished [fixStaff1] fixCfg).2 ⟨2024, 1, 1⟩ 0 fixRand 0
      fixMonthlySch (by decide)⟩⟩

/-- Adding then subtracting the same value cancels: `x + c − c + y` and `x + y` denote the same rational (an identity of
the cross-multiplied integer polynomials, valid for any
representations). -/
theorem Q.add_def (a b : Q) : a + b = Q.add a b := rfl

theorem Q.sub_def (a b : Q) : a - b = Q.sub a b := rfl

theorem Q.cancel_eqv (x c y : Q) : ((x + c) - c + y).eqv (x + y) := by
  simp only [Q.eqv, Q.add_def, Q.sub_def, Q.add, Q.sub]
  push_cast
  ring

/-- C3 counterexample: with `maxHoursPerWeek = 40`, a staff member
already committed to five 8-hour morning shifts (40 h) and a candidate
morning shift, `violatesMaxHours` fires — the very check applied (scaled
by 0.5) inside monthly scoring — although 48 h does not exceed the
claim's pro-rated monthly cap `40 × 4.33 = 173.2`. -/
theorem C3_counterexample :
    violatesMaxHours fixCfg fixMorningShift (List.replicate 5 fixMorningShift) = true
      ∧ ¬ (fixCfg.maxHoursPerWeek * (4.33 : Q)
            < calculateWeeklyHours (List.replicate 5 fixMorningShift)
              + getShiftHours fixMorningShift.type) := by
  constructor
  · decide
  · decide

/-- C3 amended: the hour-cap check compares against `maxHoursPerWeek` in
weekly and monthly scoring alike (the monthly hour sum is computed by the
same reduction as the weekly one); the `× 4.33` pro-rating appears only
in the monthly workload-balancing target, never in the cap. -/
theorem C3_amended_hour_cap (cfg : ScheduleConfiguration) (shift : Shift)
    (cur : List Shift) :
    (violatesMaxHours cfg shift cur = true
      ↔ cfg.maxHoursPerWeek < calculateWeeklyHours cur + getShiftHours shift.type)
    ∧ calculateMonthlyHours cur = calculateWeeklyHours cur :=
  ⟨Iff.rfl, rfl⟩

/-! ## C4: determinism -/

/-- C4 counterexample: two runs with identical inputs and an identical
random stream but clock readings 0 and 1 give different `Schedule`
values (the schedule id embeds `Date.now()`), so output is not
byte-identical across runs under a fixed random seed alone; likewise two
monthly runs identical in everything but the ambient timezone offset
differ, because `DateUtils.formatDate` renders local-midnight dates
through `toISOString`. -/
theorem C4_counterexample :
    generateSchedule [fixStaff1] fixCfg "2024-01-01" 0 fixRand
        ≠ generateSchedule [fixStaff1] fixCfg "2024-01-01" 1 fixRand
      ∧ generateMonthlySchedule [fixStaff1] fixCfg ⟨2024, 1, 1⟩ 0 fixRand 0
        ≠ generateMonthlySchedule [fixStaff1] fixCfg ⟨2024, 1, 1⟩ 0 fixRand (-60) := by
  constructor
  · decide
  · decide

/-- C4 amended: the generators are deterministic once the clock
reading, the random stream and (for monthly generation, whose date
strings pass through `toISOString`) the timezone offset are fixed along
with the inputs: two such runs return equal `Schedule` values, ids and
timestamps included. -/
theorem C4_amended_determinism (staffList : List Staff) (cfg : ScheduleConfiguration) :
    (∀ (weekStartDate : String) (n1 n2 : Nat) (r1 r2 : Nat → String),
      n1 = n2 → (∀ k, r1 k = r2 k) →
      generateSchedule staffList cfg weekStartDate n1 r1
        = generateSchedule staffList cfg weekStartDate n2 r2)
    ∧ (∀ (monthDate : CalDate) (n1 n2 : Nat) (r1 r2 : Nat → String) (tz1 tz2 : Int),
      n1 = n2 → (∀ k, r1 k = r2 k) → tz1 = tz2 →
      generateMonthlySchedule staffList cfg monthDate n1 r1 tz1
        = generateMonthlySchedule staffList cfg monthDate n2 r2 tz2) := by
  constructor
  · intro wsd n1 n2 r1 r2 hn hr
    subst hn
    rw [funext hr]
  · intro monthDate n1 n2 r1 r2 tz1 tz2 hn hr htz
    subst hn
    subst htz
    rw [funext hr]

theorem C4_amended_determinism_witness :
    (0 : Nat) = 0 ∧ (∀ k : Nat, fixRand k = fixRand k) ∧ (0 : Int) = 0
      ∧ generateSchedule [fixStaff1] fixCfg "2024-01-01" 0 fixRand
          = generateSchedule [fixStaff1] fixCfg "2024-01-01" 0 fixRand
      ∧ generateMonthlySchedule [fixStaff1] fixCfg ⟨2024, 1, 1⟩ 0 fixRand 0
          = generateMonthlySchedule [fixStaff1] fixCfg ⟨2024, 1, 1⟩ 0 fixRand 0 :=
  ⟨rfl, fun _ => rfl, rfl,
    (C4_amended_determinism [fixStaff1] fixCfg).1 "2024-01-01" 0 0 fixRand fixRand rfl
      (fun _ => rfl),
    (C4_amended_determinism [fixStaff1] fixCfg).2 ⟨2024, 1, 1⟩ 0 0 fixRand fixRand 0 0 rfl
      (fun _ => rfl) rfl⟩

/-- C8 counterexample: on an empty roster the weekly priority of this
shift includes the `+30` scarce-availability bonus (0 available
< 1.5 × 1), so the weekly components plus the early-date bonus give
`68 + 15.5 = 83.5`, while the monthly priority is `53.5`: the monthly
closure has no availability block. -/
theorem C8_counterexample :
    ¬ ((getMonthlyPriorityScore [] fixTightShift).eqv
        (getPriorityScore fixCfg [] fixTightShift
          + earlyDatePriority fixTightShift.date)) := by
  decide

/-- C8 amended: the monthly priority equals the weekly priority minus the
weekly-only `+30` availability bonus, plus the decaying early-date bonus
`max(0, 32 − dayOfMonth) × 0.5`. -/
theorem C8_amended_monthly_priority (cfg : ScheduleConfiguration)
    (staffList : List Staff) (shift : Shift) :
    (getMonthlyPriorityScore staffList shift).eqv
      (getPriorityScore cfg staffList shift
        - availabilityPriority cfg staffList shift
        + earlyDatePriority shift.date) := by
  unfold getMonthlyPriorityScore getPriorityScore
  exact (Q.cancel_eqv _ _ _).symm

/-- C5: the weekly scorer's holiday check compares the holiday set with
the constant placeholder `2024-01-01` that `getShiftDate()` returns (the
source comments it "should be replaced with actual date calculation"),
never with the shift's actual calendar date.  For the Monday shift of the
week generated from 2024-03-11 — whose actual date is 2024-03-11, and
which carries no date field at all — a staff member holding that very
date as a holiday scores exactly like one with no holidays, while a
holiday entry `2024-01-01` costs `−30` in every generated week.  Monthly
scoring, by contrast, penalises the shift's real date. -/
theorem C5_weekly_holiday_placeholder :
    fixMar11Shift ∈ fixMar11Sch.shifts
      ∧ fixMar11Shift.day = DayOfWeek.monday
      ∧ fixMar11Shift.date = none
      ∧ (calculateStaffScore fixCfg [fixStaffHolidayActual] fixStaffHolidayActual
            fixMar11Shift []).eqv
          (calculateStaffScore fixCfg [fixStaff1] fixStaff1 fixMar11Shift [])
      ∧ (calculateStaffScore fixCfg [fixStaffHolidayPlaceholder] fixStaffHolidayPlaceholder
            fixMar11Shift []).eqv
          (calculateStaffScore fixCfg [fixStaff1] fixStaff1 fixMar11Shift [] - 30)
      ∧ fixMonthlyShift.date = some "2024-01-01"
      ∧ (calculateMonthlyStaffScore fixCfg [fixStaffHolidayPlaceholder]
            fixStaffHolidayPlaceholder fixMonthlyShift [] []).eqv
          (calculateMonthlyStaffScore fixCfg [fixStaff1] fixStaff1 fixMonthlyShift [] [] - 30) :=
  ⟨by decide, by decide, by decide, by decide, by decide, by decide, by decide⟩

/-- C6: `violatesRestTime` returns true exactly when some already
assigned shift on an adjacent day (by day-of-week index) leaves a
wrap-through-24 rest gap below the configured minimum, or some same-day
shift overlaps outright. -/
theorem C6_rest_time_exactly (cfg : ScheduleConfiguration) (shift : Shift)
    (cur : List Shift) :
    violatesRestTime cfg shift cur = true ↔ restTimeSpec cfg shift cur := by
  unfold violatesRestTime restTimeSpec
  rw [List.any_eq_true]
  refine exists_congr fun a => and_congr_right fun _ => ?_
  dsimp only
  by_cases h1 : (((dayIndex shift.day : Int) - (dayIndex a.day : Int)).natAbs == 1) = true
  · rw [if_pos h1]
    have h1n : ((dayIndex shift.day : Int) - (dayIndex a.day : Int)).natAbs = 1 := by
      simpa using h1
    constructor
    · intro hb
      exact Or.inl ⟨h1n, hb⟩
    · rintro (⟨_, hb⟩ | ⟨heq, _⟩)
      · exact hb
      · rw [heq] at h1n
        simp at h1n
  · rw [if_neg h1]
    by_cases h2 : (((dayIndex shift.day : Int) - (dayIndex a.day : Int)).natAbs == 0) = true
    · rw [if_pos h2]
      have h2n : dayIndex shift.day = dayIndex a.day := by
        have h2x : ((dayIndex shift.day : Int) - (dayIndex a.day : Int)).natAbs = 0 := by
          simpa using h2
        omega
      constructor
      · intro hb
        refine Or.inr ⟨h2n, ?_⟩
        simp only [Bool.not_eq_true', Bool.or_eq_false_iff] at hb
        rintro (hc | hc)
        · have hcb : Q.ble (getShiftEndHour shift.type) (getShiftStartHour a.type) = true := hc
          rw [hb.1] at hcb
          exact Bool.false_ne_true hcb
        · have hcb : Q.ble (getShiftEndHour a.type) (getShiftStartHour shift.type) = true := hc
          rw [hb.2] at hcb
          exact Bool.false_ne_true hcb
      · rintro (⟨h1n, _⟩ | ⟨_, hno⟩)
        · exact absurd (by simpa using h1n) h1
        · simp only [Bool.not_eq_true', Bool.or_eq_false_iff]
          constructor
          · cases hble : Q.ble (getShiftEndHour shift.type) (getShiftStartHour a.type) with
            | false => rfl
            | true => exact absurd (Or.inl hble) hno
          · cases hble : Q.ble (getShiftEndHour a.type) (getShiftStartHour shift.type) with
            | false => rfl
            | true => exact absurd (Or.inr hble) hno
    · rw [if_neg h2]
      constructor
      · intro hb
        exact absurd hb (by simp)
      · rintro (⟨h1n, _⟩ | ⟨heq, _⟩)
        · exact absurd (by simpa using h1n) h1
        · exact absurd (by simp [heq]) h2

/-! ## C7: input validation -/

theorem daysInMonth_ge_28 (y m : Nat) : 28 ≤ daysInMonth y m := by
  unfold daysInMonth
  split
  · split <;> omega
  · split <;> omega

theorem rataDie_day_add (y m o : Nat) :
    rataDie ⟨y, m, o + 1⟩ = rataDie ⟨y, m, 1⟩ + o := by
  unfold rataDie
  dsimp only
  omega

theorem jsWeekday_jsWeekdayIndex (w : DayOfWeek) :
    jsWeekday (jsWeekdayIndex w) = w := by
  cases w <;> rfl

theorem jsWeekdayIndex_lt (w : DayOfWeek) : jsWeekdayIndex w < 7 := by
  cases w <;> decide

/-- Every calendar month contains every day of the week: months have at
least 28 days, and the weekday of day `1 + o` advances with `o`. -/
theorem getMonthDates_weekday (d : CalDate) (w : DayOfWeek) :
    ∃ x ∈ getMonthDates d, getDayOfWeek x = w := by
  set a := rataDie ⟨d.year, d.month, 1⟩ with ha
  set t := jsWeekdayIndex w with htdef
  set o := (t + 7 - (a + 1) % 7) % 7 with hodef
  have ht : t < 7 := jsWeekdayIndex_lt w
  have ho : o < 7 := Nat.mod_lt _ (by omega)
  refine ⟨⟨d.year, d.month, o + 1⟩, ?_, ?_⟩
  · unfold getMonthDates
    refine List.mem_map.mpr ⟨o, List.mem_range.mpr ?_, rfl⟩
    have := daysInMonth_ge_28 d.year d.month
    omega
  · unfold getDayOfWeek getDay
    rw [rataDie_day_add, ← ha]
    have hmod : (a + o + 1) % 7 = t := by omega
    rw [hmod, htdef]
    exact jsWeekday_jsWeekdayIndex w

/-- A calendar date whose weekday is missing from `dayConfigurations`
aborts the monthly factory with the runtime type error as soon as it is
reached. -/
theorem buildMonthShifts_missing_day (cfg : ScheduleConfiguration) (now : Nat)
    (rand : Nat → String) (tz : Int) :
    ∀ (dates : List CalDate) (k : Nat),
      (∃ x ∈ dates, cfg.dayConfigurations (getDayOfWeek x) = none) →
      buildMonthShifts cfg now rand tz dates k = .error .typeError := by
  intro dates
  induction dates with
  | nil =>
    intro k h
    obtain ⟨x, hx, _⟩ := h
    exact absurd hx (List.not_mem_nil x)
  | cons d0 rest ih =>
    intro k h
    simp only [buildMonthShifts]
    split
    · rfl
    · rename_i dayCfg hdc
      obtain ⟨x, hx, hnone⟩ := h
      rcases List.mem_cons.mp hx with rfl | hx2
      · rw [hdc] at hnone
        exact absurd hnone (by simp)
      · rw [ih _ ⟨x, hx2, hnone⟩]

/-- A day-of-week missing from `dayConfigurations` aborts the weekly
factory with the runtime type error as soon as it is reached. -/
theorem buildWeekShifts_missing_day (cfg : ScheduleConfiguration) (now : Nat)
    (rand : Nat → String) :
    ∀ (days : List DayOfWeek) (k : Nat),
      (∃ d ∈ days, cfg.dayConfigurations d = none) →
      buildWeekShifts cfg now rand days k = .error .typeError := by
  intro days
  induction days with
  | nil =>
    intro k h
    obtain ⟨d, hd, _⟩ := h
    exact absurd hd (List.not_mem_nil d)
  | cons d0 rest ih =>
    intro k h
    simp only [buildWeekShifts]
    split
    · rfl
    · rename_i dayCfg hdc
      obtain ⟨d, hd, hnone⟩ := h
      rcases List.mem_cons.mp hd with rfl | hd2
      · rw [hdc] at hnone
        exact absurd hnone (by simp)
      · rw [ih _ ⟨d, hd2, hnone⟩]

theorem buildWeekShifts_total (cfg : ScheduleConfiguration) (now : Nat)
    (rand : Nat → String) (h : ∀ d, (cfg.dayConfigurations d).isSome) :
    ∀ (days : List DayOfWeek) (k : Nat),
      ∃ shifts, buildWeekShifts cfg now rand days k = .ok shifts := by
  intro days
  induction days with
  | nil => intro k; exact ⟨[], rfl⟩
  | cons d0 rest ih =>
    intro k
    cases hdc : cfg.dayConfigurations d0 with
    | none =>
      have := h d0
      rw [hdc] at this
      exact absurd this (by simp)
    | some dayCfg =>
      obtain ⟨more, hmore⟩ := ih (k + dayCfg.enabledShiftTypes.length)
      exact ⟨(dayCfg.enabledShiftTypes.enum.map fun p =>
          mkShift d0 none dayCfg p.2 now (rand (k + p.1))) ++ more,
        by simp only [buildWeekShifts, hdc, hmore]⟩

theorem buildMonthShifts_total (cfg : ScheduleConfiguration) (now : Nat)
    (rand : Nat → String) (tz : Int) (h : ∀ d, (cfg.dayConfigurations d).isSome) :
    ∀ (dates : List CalDate) (k : Nat),
      ∃ shifts, buildMonthShifts cfg now rand tz dates k = .ok shifts := by
  intro dates
  induction dates with
  | nil => intro k; exact ⟨[], rfl⟩
  | cons d0 rest ih =>
    intro k
    cases hdc : cfg.dayConfigurations (getDayOfWeek d0) with
    | none =>
      have := h (getDayOfWeek d0)
      rw [hdc] at this
      exact absurd this (by simp)
    | some dayCfg =>
      obtain ⟨more, hmore⟩ := ih (k + dayCfg.enabledShiftTypes.length)
      exact ⟨(dayCfg.enabledShiftTypes.enum.map fun p =>
          mkShift (getDayOfWeek d0) (some (formatDate tz d0)) dayCfg p.2 now
            (rand (k + p.1))) ++ more,
        by simp only [buildMonthShifts, hdc, hmore]⟩

/-- C7 counterexample: a configuration supplying
`minimumStaff = 3 > maximumStaff = 1` does not fail fast with a
descriptive error — weekly generation succeeds and returns a schedule
whose first shift carries the contradictory bounds. -/
theorem C7_counterexample :
    generateSchedule [fixStaff1] fixBadCfg "2024-01-01" 0 fixRand = .ok fixBadSch
      ∧ (fixBadSch.shifts.headD fixDummyShift).minimumStaff = 3
      ∧ (fixBadSch.shifts.headD fixDummyShift).maximumStaff = 1 :=
  ⟨by decide, by decide, by decide⟩

/-- C7 amended: the engine performs no input validation.  A day-of-week
missing from `dayConfigurations` crashes both generators with the
unrelated runtime type error of dereferencing `undefined` (every month
contains every weekday), and `minimumStaff > maximumStaff` is accepted
silently: whenever every day policy is present, both generators return a
schedule. -/
theorem C7_amended_no_validation (staffList : List Staff) (cfg : ScheduleConfiguration) :
    (∀ (weekStartDate : String) (now : Nat) (rand : Nat → String),
      (∃ d ∈ daysOfWeek, cfg.dayConfigurations d = none) →
      generateSchedule staffList cfg weekStartDate now rand = .error .typeError)
    ∧ (∀ (monthDate : CalDate) (now : Nat) (rand : Nat → String) (tz : Int),
      (∃ d ∈ daysOfWeek, cfg.dayConfigurations d = none) →
      generateMonthlySchedule staffList cfg monthDate now rand tz = .error .typeError)
    ∧ (∀ (weekStartDate : String) (now : Nat) (rand : Nat → String),
      (∀ d, (cfg.dayConfigurations d).isSome) →
      (generateSchedule staffList cfg weekStartDate now rand).isOk = true)
    ∧ (∀ (monthDate : CalDate) (now : Nat) (rand : Nat → String) (tz : Int),
      (∀ d, (cfg.dayConfigurations d).isSome) →
      (generateMonthlySchedule staffList cfg monthDate now rand tz).isOk = true) := by
  refine ⟨?_, ?_, ?_, ?_⟩
  · intro wsd now rand h
    unfold generateSchedule
    rw [buildWeekShifts_missing_day cfg now rand daysOfWeek 0 h]
  · intro monthDate now rand tz h
    obtain ⟨d, _, hnone⟩ := h
    obtain ⟨x, hx, hdx⟩ := getMonthDates_weekday monthDate d
    unfold generateMonthlySchedule
    rw [buildMonthShifts_missing_day cfg now rand tz (getMonthDates monthDate) 0
      ⟨x, hx, by rw [hdx]; exact hnone⟩]
  · intro wsd now rand h
    obtain ⟨shifts, hs⟩ := buildWeekShifts_total cfg now rand h daysOfWeek 0
    unfold generateSchedule
    rw [hs]
    rfl
  · intro monthDate now rand tz h
    obtain ⟨shifts, hs⟩ :=
      buildMonthShifts_total cfg now rand tz h (getMonthDates monthDate) 0
    unfold generateMonthlySchedule
    rw [hs]
    rfl

theorem C7_amended_no_validation_witness :
    (∃ d ∈ daysOfWeek, fixMissingCfg.dayConfigurations d = none)
      ∧ generateSchedule [fixStaff1] fixMissingCfg "2024-01-01" 0 fixRand = .error .typeError
      ∧ generateMonthlySchedule [fixStaff1] fixMissingCfg ⟨2024, 1, 1⟩ 0 fixRand 0
          = .error .typeError
      ∧ (∀ d, (fixBadCfg.dayConfigurations d).isSome)
      ∧ (generateSchedule [fixStaff1] fixBadCfg "2024-01-01" 0 fixRand).isOk = true
      ∧ (generateMonthlySchedule [fixStaff1] fixBadCfg ⟨2024, 1, 1⟩ 0 fixRand 0).isOk = true :=
  ⟨⟨DayOfWeek.monday, by decide, by rfl⟩,
    (C7_amended_no_validation [fixStaff1] fixMissingCfg).1 "2024-01-01" 0 fixRand
      ⟨DayOfWeek.monday, by decide, by rfl⟩,
    (C7_amended_no_validation [fixStaff1] fixMissingCfg).2.1 ⟨2024, 1, 1⟩ 0 fixRand 0
      ⟨DayOfWeek.monday, by decide, by rfl⟩,
    fun d => by cases d <;> rfl,
    (C7_amended_no_validation [fixStaff1] fixBadCfg).2.2.1 "2024-01-01" 0 fixRand
      (fun d => by cases d <;> rfl),
    (C7_amended_no_validation [fixStaff1] fixBadCfg).2.2.2 ⟨2024, 1, 1⟩ 0 fixRand 0
      (fun d => by cases d <;> rfl)⟩

